import Mathlib

/-!
Verification development for the pit-stop and overtaking analytics pipeline
(chapters 4 and 5 exporters of the f1-data-intel-2025 repository).

The Python sources are shallowly embedded over cleaned tabular data:
pandas DataFrames become lists of records (a record field that can be NaN
becomes an `Option`), timestamps and stop durations become rationals
(seconds), machine floats become `ℚ`, and Python `round` (banker's
rounding, also used by `round(x, 3)`) is modelled by `pyRoundInt` /
`pyRound3` on `ℚ`.  pandas `sort_values` is modelled by an insertion sort
(its unstable quicksort order on ties is unspecified; no result here
depends on tie order), `drop_duplicates(keep="first")` by `dedupBy`.
-/

namespace F1

/-- Python `round(x)` to an integer: round half to even (banker's rounding). -/
def pyRoundInt (q : ℚ) : ℤ :=
  if q - ⌊q⌋ < 1 / 2 then ⌊q⌋
  else if 1 / 2 < q - ⌊q⌋ then ⌊q⌋ + 1
  else if ⌊q⌋ % 2 = 0 then ⌊q⌋ else ⌊q⌋ + 1

/-- Python `round(x, 3)`: round to 3 decimal places, half to even. -/
def pyRound3 (q : ℚ) : ℚ := (pyRoundInt (q * 1000) : ℚ) / 1000

/-- Python `min(list)` over rationals, with the pipeline's `0.0` default for
the empty list (the sources only take a min after an explicit non-empty
check or with that default). -/
def listMin : List ℚ → ℚ
  | [] => 0
  | x :: xs => xs.foldl min x

/-- Python `max(list)` over rationals, with `0.0` for the empty list. -/
def listMax : List ℚ → ℚ
  | [] => 0
  | x :: xs => xs.foldl max x

/-- Maximum of a list of integers (used for per-driver max lap number);
`0` for the empty list, which the call sites rule out. -/
def listMaxZ : List ℤ → ℤ
  | [] => 0
  | x :: xs => xs.foldl max x

/-- pandas `Series.mean()`. -/
def listMean (l : List ℚ) : ℚ := l.sum / l.length

/-- Population variance, the square of pandas `Series.std(ddof=0)`.
The standard deviation itself is irrational-valued, so the embedding
carries its square; `Real.sqrt` is strictly monotone on nonnegatives, so
equality and ordering facts transport. -/
def popVar (l : List ℚ) : ℚ := (l.map (fun x => (x - listMean l) ^ 2)).sum / l.length

/-- pandas `Series.quantile(p)` with the default linear interpolation:
index `h = p * (n - 1)` into the ascending sort, interpolating between
the neighbouring order statistics. -/
def pandasQuantile (l : List ℚ) (p : ℚ) : ℚ :=
  match l with
  | [] => 0
  | _ :: _ =>
    let s := List.insertionSort (· ≤ ·) l
    let pos : ℚ := p * ((l.length : ℚ) - 1)
    let i : ℤ := ⌊pos⌋
    let lo := s.getD i.toNat 0
    let hi := s.getD (i.toNat + 1) lo
    lo + (pos - (i : ℚ)) * (hi - lo)

/-- Helper for `dedupBy`: drop every row whose key was already seen. -/
def dedupByAux {α β : Type} [DecidableEq β] (key : α → β) (seen : List β) : List α → List α
  | [] => []
  | x :: xs =>
    if key x ∈ seen then dedupByAux key seen xs
    else x :: dedupByAux key (key x :: seen) xs

/-- pandas `drop_duplicates(keep="first")` on a key: keep the first row
with each key value, preserving order. -/
def dedupBy {α β : Type} [DecidableEq β] (key : α → β) (l : List α) : List α :=
  dedupByAux key [] l

theorem listMin_le_of_mem {l : List ℚ} {x : ℚ} (hx : x ∈ l) : listMin l ≤ x := by
  have key : ∀ (xs : List ℚ) (a : ℚ), xs.foldl min a ≤ a ∧ ∀ y ∈ xs, xs.foldl min a ≤ y := by
    intro xs
    induction xs with
    | nil => intro a; exact ⟨le_refl a, by intro y hy; cases hy⟩
    | cons z zs ih =>
      intro a
      have h := ih (min a z)
      refine ⟨le_trans h.1 (min_le_left a z), ?_⟩
      intro y hy
      rcases List.mem_cons.mp hy with rfl | hy'
      · exact le_trans h.1 (min_le_right a y)
      · exact h.2 y hy'
  cases l with
  | nil => cases hx
  | cons a xs =>
    rcases List.mem_cons.mp hx with rfl | hx'
    · exact (key xs x).1
    · exact (key xs a).2 x hx'

theorem le_listMax_of_mem {l : List ℚ} {x : ℚ} (hx : x ∈ l) : x ≤ listMax l := by
  have key : ∀ (xs : List ℚ) (a : ℚ), a ≤ xs.foldl max a ∧ ∀ y ∈ xs, y ≤ xs.foldl max a := by
    intro xs
    induction xs with
    | nil => intro a; exact ⟨le_refl a, by intro y hy; cases hy⟩
    | cons z zs ih =>
      intro a
      have h := ih (max a z)
      refine ⟨le_trans (le_max_left a z) h.1, ?_⟩
      intro y hy
      rcases List.mem_cons.mp hy with rfl | hy'
      · exact le_trans (le_max_right a y) h.1
      · exact h.2 y hy'
  cases l with
  | nil => cases hx
  | cons a xs =>
    rcases List.mem_cons.mp hx with rfl | hx'
    · exact (key xs x).1
    · exact (key xs a).2 x hx'

theorem listMin_allEq {l : List ℚ} {r : ℚ} (hne : l ≠ []) (h : ∀ x ∈ l, x = r) :
    listMin l = r := by
  have key : ∀ (xs : List ℚ), (∀ x ∈ xs, x = r) → xs.foldl min r = r := by
    intro xs
    induction xs with
    | nil => intro _; rfl
    | cons z zs ih =>
      intro hall
      have hz : z = r := hall z (List.mem_cons_self z zs)
      have : ∀ x ∈ zs, x = r := fun x hx => hall x (List.mem_cons_of_mem z hx)
      simp [hz, min_self, ih this]
  cases l with
  | nil => exact absurd rfl hne
  | cons a xs =>
    have ha : a = r := h a (List.mem_cons_self a xs)
    have : ∀ x ∈ xs, x = r := fun x hx => h x (List.mem_cons_of_mem a hx)
    simp only [listMin, ha]
    exact key xs this

theorem listMax_allEq {l : List ℚ} {r : ℚ} (hne : l ≠ []) (h : ∀ x ∈ l, x = r) :
    listMax l = r := by
  have key : ∀ (xs : List ℚ), (∀ x ∈ xs, x = r) → xs.foldl max r = r := by
    intro xs
    induction xs with
    | nil => intro _; rfl
    | cons z zs ih =>
      intro hall
      have hz : z = r := hall z (List.mem_cons_self z zs)
      have : ∀ x ∈ zs, x = r := fun x hx => hall x (List.mem_cons_of_mem z hx)
      simp [hz, max_self, ih this]
  cases l with
  | nil => exact absurd rfl hne
  | cons a xs =>
    have ha : a = r := h a (List.mem_cons_self a xs)
    have : ∀ x ∈ xs, x = r := fun x hx => h x (List.mem_cons_of_mem a hx)
    simp only [listMax, ha]
    exact key xs this

theorem pyRoundInt_mem_range {q : ℚ} (h0 : 0 ≤ q) (h1 : q ≤ 100) :
    0 ≤ pyRoundInt q ∧ pyRoundInt q ≤ 100 := by
  have hf0 : (0 : ℤ) ≤ ⌊q⌋ := Int.le_floor.mpr (by exact_mod_cast h0)
  have hf1 : ⌊q⌋ ≤ 100 := by
    have := Int.floor_le_floor h1
    simpa using this
  unfold pyRoundInt
  split
  · exact ⟨hf0, hf1⟩
  · rename_i hlt
    have hfrac : (1 : ℚ) / 2 ≤ q - ⌊q⌋ := le_of_not_lt hlt
    have hqgt : (⌊q⌋ : ℚ) < q := by linarith
    have hlt100 : ⌊q⌋ < 100 := by
      by_contra hcon
      have h100 : ⌊q⌋ = 100 := le_antisymm hf1 (not_lt.mp hcon)
      rw [h100] at hqgt
      have : (100 : ℚ) < q := by exact_mod_cast hqgt
      linarith
    split
    · exact ⟨by omega, by omega⟩
    · split
      · exact ⟨hf0, hf1⟩
      · exact ⟨by omega, by omega⟩

theorem toDigitsCore_ne_nil (b : ℕ) : ∀ (f n : ℕ) (ds : List Char), ds ≠ [] →
    Nat.toDigitsCore b f n ds ≠ [] := by
  intro f
  induction f with
  | zero => intro n ds h; simpa [Nat.toDigitsCore] using h
  | succ f ih =>
    intro n ds h
    rw [Nat.toDigitsCore]
    split
    · simp
    · exact ih _ _ (by simp)

theorem toDigits_ne_nil (b n : ℕ) : Nat.toDigits b n ≠ [] := by
  rw [Nat.toDigits, Nat.toDigitsCore]
  split
  · simp
  · exact toDigitsCore_ne_nil _ _ _ _ (by simp)

theorem natRepr_ne (n : ℕ) : Nat.repr n ≠ "" := by
  rw [Nat.repr]
  intro h
  have := congrArg String.data h
  simp [List.asString] at this
  exact toDigits_ne_nil 10 n this

/-- Python `str(driver_number)` is never the empty string: the numeric-identifier
fallback of the identity reconciliation always yields a non-empty label. -/
theorem intToString_ne (n : ℤ) : toString n ≠ "" := by
  show Int.repr n ≠ ""
  cases n with
  | ofNat m => exact natRepr_ne m
  | negSucc m =>
    rw [Int.repr]
    intro h
    have := congrArg String.data h
    rw [String.data_append] at this
    simp at this

/-!
Chapter 4 (`export_chapter4_pitstops.py`): driver identity reconciliation,
pit-stop extraction with its validity filter, and the per-round / season
aggregation rows.
-/

/-- Python truthiness for an optional string: `None` and `""` are falsy
(models the `a or b or c` chains over `dict.get` results). -/
def pyTruthy (s : Option String) : Option String :=
  match s with
  | none => none
  | some t => if t = "" then none else some t

/-- One value of the per-round driver map of either provider
(`_fetch_openf1_driver_map` / `_fetch_fastf1_driver_map` in chapter 4):
abbreviation, team name and full name, each already stripped, possibly `""`. -/
structure Meta4 where
  abbr : String
  team : String
  name : String
deriving DecidableEq

/-- Dictionary lookup `map.get(driver_number, {})`, with the map as an
association list keyed by driver number. -/
def metaLookup (m : List (ℤ × Meta4)) (n : ℤ) : Option Meta4 :=
  (m.find? (fun p => p.1 == n)).map (·.2)

/-- Embeds `map_driver_meta` (chapter 4 `main`, lines 404-409):
`driver = str(o.get("abbr") or f.get("abbr") or driver_number)` and
`team = str(o.get("team") or f.get("team") or "Unknown")`, where `o` is the
OpenF1 (secondary-provider) map and `f` the FastF1 (primary-provider) map. -/
def mapDriverMeta (openf1 fastf1 : List (ℤ × Meta4)) (n : ℤ) : String × String :=
  let o := metaLookup openf1 n
  let f := metaLookup fastf1 n
  (match pyTruthy (o.map (·.abbr)) with
   | some s => s
   | none =>
     match pyTruthy (f.map (·.abbr)) with
     | some s => s
     | none => toString n,
   match pyTruthy (o.map (·.team)) with
   | some s => s
   | none =>
     match pyTruthy (f.map (·.team)) with
     | some s => s
     | none => "Unknown")

/-- Definition following the specification's words for claim C1: the
primary provider's (FastF1) fields take precedence when non-empty, falling
back to the secondary provider's (OpenF1) fields, otherwise to the
stringified driver number / `"Unknown"`.  Compared against the source
embedding `mapDriverMeta`. -/
def mapDriverMetaSpec (openf1 fastf1 : List (ℤ × Meta4)) (n : ℤ) : String × String :=
  let o := metaLookup openf1 n
  let f := metaLookup fastf1 n
  (match pyTruthy (f.map (·.abbr)) with
   | some s => s
   | none =>
     match pyTruthy (o.map (·.abbr)) with
     | some s => s
     | none => toString n,
   match pyTruthy (f.map (·.team)) with
   | some s => s
   | none =>
     match pyTruthy (o.map (·.team)) with
     | some s => s
     | none => "Unknown")

/-- A raw OpenF1 `/pit` record after numeric coercion: each duration-column
candidate carries `none` where the value is missing or non-numeric (NaN). -/
structure RawPitRow where
  pit_duration : Option ℚ
  stop_duration : Option ℚ
  pit_time : Option ℚ
  driver_number : Option ℤ
  lap_number : Option ℤ
deriving DecidableEq

/-- The OpenF1 `/pit` response: its rows together with which of the
candidate duration columns are present in the DataFrame at all. -/
structure PitResponse where
  rows : List RawPitRow
  hasPitDuration : Bool
  hasStopDuration : Bool
  hasPitTime : Bool
deriving DecidableEq

/-- The first matching duration-column candidate wins (chapter 4
`_fetch_pit_df`, candidate order `pit_duration`, `stop_duration`,
`pit_time`); the chosen column then supplies each row's value. -/
def rowDuration (pr : PitResponse) (r : RawPitRow) : Option ℚ :=
  if pr.hasPitDuration then r.pit_duration
  else if pr.hasStopDuration then r.stop_duration
  else if pr.hasPitTime then r.pit_time
  else none

/-- A validated OpenF1 pit row (`_fetch_pit_df` output): duration filter
and `driver_number` dropna applied. -/
structure PitRow where
  pit_s : ℚ
  driver_number : ℤ
  lap_number : Option ℤ
deriving DecidableEq

/-- Embeds `_fetch_pit_df`: empty response gives an empty frame, a missing
duration column gives an empty frame, otherwise coerce the duration, drop
missing values, keep `0 < pit_s < 120`, and drop rows without a numeric
driver number. -/
def fetchPitDf (pr : PitResponse) : List PitRow :=
  if pr.rows = [] then []
  else if ¬(pr.hasPitDuration ∨ pr.hasStopDuration ∨ pr.hasPitTime) then []
  else
    pr.rows.filterMap (fun r =>
      match rowDuration pr r with
      | none => none
      | some d =>
        if 0 < d ∧ d < 120 then
          match r.driver_number with
          | none => none
          | some dn => some ⟨d, dn, r.lap_number⟩
        else none)

/-- A FastF1 lap row as `_fetch_fastf1_pit_df` reads it: `LapNumber`,
`PitInTime` and `PitOutTime` can be NaN/NaT, `DriverNumber` can be missing,
`Team` is read with `str(getattr(row, "Team", "") or "")` so absence
becomes `""`.  Times are timedeltas in seconds. -/
structure FLap where
  fDriver : String
  fLapNumber : Option ℤ
  fPitInTime : Option ℚ
  fPitOutTime : Option ℚ
  fDriverNumber : Option ℤ
  fTeam : String
deriving DecidableEq

/-- The FastF1 laps table for a round; the source returns an empty frame
when the session load fails (`none` here), when the table is empty, or
when one of the four required columns is absent. -/
structure LapsTable where
  rows : List FLap
  hasDriver : Bool
  hasLapNumber : Bool
  hasPitInTime : Bool
  hasPitOutTime : Bool
deriving DecidableEq

/-- One row of the fallback pit frame derived from FastF1 laps. -/
structure FallbackRow where
  driver_number : Option ℤ
  driver : String
  team : String
  lap_number : ℤ
  pit_s : ℚ
deriving DecidableEq

/-- Sort order on optional lap numbers: pandas `sort_values` places NaN
last. -/
def lapLe (a b : Option ℤ) : Prop :=
  match a, b with
  | some x, some y => x ≤ y
  | some _, none => True
  | none, some _ => False
  | none, none => True

instance : DecidableRel lapLe := fun a b => by
  unfold lapLe
  match a, b with
  | some x, some y => exact inferInstanceAs (Decidable (x ≤ y))
  | some _, none => exact inferInstanceAs (Decidable True)
  | none, some _ => exact inferInstanceAs (Decidable False)
  | none, none => exact inferInstanceAs (Decidable True)

/-- One driver's lap group, sorted by lap number (`grp.sort_values("LapNumber")`). -/
def groupRows (rows : List FLap) (d : String) : List FLap :=
  List.insertionSort (fun a b => lapLe a.fLapNumber b.fLapNumber)
    (rows.filter (fun r => r.fDriver == d))

/-- The `lap_index` dict of `_fetch_fastf1_pit_df`: maps a lap number to
the last group row carrying it (a Python dict comprehension keeps the last
entry per key).  Rows whose `LapNumber` is NaN are outside every key. -/
def lapIndexGet (g : List FLap) (l : ℤ) : Option FLap :=
  ((g.filter (fun r => r.fLapNumber == some l)).reverse).head?

/-- The per-row emission of `_fetch_fastf1_pit_df`: a lap with a recorded
pit-exit time whose previous lap has a recorded pit-entry time yields a
stop of duration exit − entry, kept only when `0 < pit_s < 120`. -/
def emitFallbackRow (g : List FLap) (d : String) (r : FLap) : Option FallbackRow :=
  match r.fLapNumber with
  | none => none
  | some l =>
    match r.fPitOutTime with
    | none => none
    | some out =>
      match lapIndexGet g (l - 1) with
      | none => none
      | some prevRow =>
        match prevRow.fPitInTime with
        | none => none
        | some pin =>
          let s := out - pin
          if 0 < s ∧ s < 120 then some ⟨r.fDriverNumber, d, r.fTeam, l, s⟩ else none

/-- The distinct driver keys in ascending order (pandas `groupby` sorts
group keys). -/
def driversOf (rows : List FLap) : List String :=
  List.insertionSort (fun a b => a < b ∨ a = b) (dedupBy id (rows.map (·.fDriver)))

/-- Embeds `_fetch_fastf1_pit_df`: empty on load failure, an empty laps
table, or missing required columns; otherwise the per-driver, per-lap
pit-window extraction. -/
def fetchFastf1PitDf (lt : Option LapsTable) : List FallbackRow :=
  match lt with
  | none => []
  | some t =>
    if t.rows = [] then []
    else if ¬(t.hasDriver ∧ t.hasLapNumber ∧ t.hasPitInTime ∧ t.hasPitOutTime) then []
    else
      ((driversOf t.rows).map (fun d =>
        let g := groupRows t.rows d
        g.filterMap (emitFallbackRow g d))).flatten

/-- A row of the chapter-4 `mapped` frame (main loop, lines 411-431):
validated pit rows with `driver` / `team` columns added as `""` where the
source frame lacked them. -/
structure MappedRow where
  driver_number : Option ℤ
  driver : String
  team : String
  lap_number : Option ℤ
  pit_s : ℚ
deriving DecidableEq

/-- An OpenF1 pit row entering `mapped`: the `/pit` frame has no
`driver` / `team` columns, so both are added as `""`. -/
def pitToMapped (p : PitRow) : MappedRow :=
  ⟨some p.driver_number, "", "", p.lap_number, p.pit_s⟩

/-- A fallback pit row entering `mapped`: it already carries its
`driver` / `team` strings. -/
def fbToMapped (f : FallbackRow) : MappedRow :=
  ⟨f.driver_number, f.driver, f.team, some f.lap_number, f.pit_s⟩

/-- Python `.strip()`: drop whitespace from both ends, character-wise over
the string data (`String.trim` recurses by well-founded byte positions,
which blocks definitional evaluation; this is extensionally the same). -/
def strStrip (s : String) : String :=
  ⟨((s.data.dropWhile Char.isWhitespace).reverse.dropWhile Char.isWhitespace).reverse⟩

/-- Embeds `_fill_row`: when the row has a numeric driver number, a blank
(empty after strip) `driver` or `team` is replaced by the reconciled
identity from `map_driver_meta`; rows without a driver number are left
unchanged. -/
def fillRow (openf1 fastf1 : List (ℤ × Meta4)) (r : MappedRow) : MappedRow :=
  match r.driver_number with
  | none => r
  | some n =>
    let dt := mapDriverMeta openf1 fastf1 n
    { r with
      driver := if strStrip r.driver = "" then dt.1 else r.driver
      team := if strStrip r.team = "" then dt.2 else r.team }

/-- One round's validated, identity-annotated pit events (chapter 4 main
loop): the OpenF1 pit frame, with the FastF1 lap fallback when it is
empty, then `_fill_row` over every row.  These rows feed the per-round
team table, the race summary row, the undercut proxy and the season
concatenation. -/
def ch4RoundPits (pr : PitResponse) (lt : Option LapsTable)
    (openf1 fastf1 : List (ℤ × Meta4)) : List MappedRow :=
  let base :=
    if fetchPitDf pr = [] then (fetchFastf1PitDf lt).map fbToMapped
    else (fetchPitDf pr).map pitToMapped
  base.map (fillRow openf1 fastf1)

/-- The season concatenation `pd.concat(season_pit_rows)`: all processed
rounds' mapped rows, in round order. -/
def ch4SeasonPits (roundsData : List (PitResponse × Option LapsTable × List (ℤ × Meta4) × List (ℤ × Meta4))) :
    List MappedRow :=
  (roundsData.map (fun x => ch4RoundPits x.1 x.2.1 x.2.2.1 x.2.2.2)).flatten

/-- The chapter-4 race summary row (`_race_summary_row`); `fastest` is the
row at `idxmin`, i.e. the first row attaining the minimal duration. -/
structure RaceSummaryRow where
  round : ℤ
  total_stops : ℤ
  median_pit_s : ℚ
  iqr_pit_s : ℚ
  fastest_pit_s : ℚ
  fastest_team : String
  fastest_driver : String
deriving DecidableEq

/-- Embeds `_race_summary_row`: `none` on an empty frame, otherwise the
round's stop count, median, interquartile range and the fastest stop with
its team/driver labels taken verbatim from the fastest row. -/
def raceSummaryRow (round : ℤ) (rows : List MappedRow) : Option RaceSummaryRow :=
  match rows with
  | [] => none
  | r0 :: rest =>
    let vals := (r0 :: rest).map (·.pit_s)
    let q1 := pandasQuantile vals (1 / 4)
    let q3 := pandasQuantile vals (3 / 4)
    let fastest := rest.foldl (fun best x => if x.pit_s < best.pit_s then x else best) r0
    some ⟨round, (r0 :: rest).length, pyRound3 (pandasQuantile vals (1 / 2)),
      pyRound3 (q3 - q1), pyRound3 fastest.pit_s, fastest.team, fastest.driver⟩

/-- One row of the per-round team pit table (`_team_round_metrics` inner
loop), built from a team's stop durations for the round.  `consistencySq`
is the square of the emitted `consistency_s` (population standard
deviation; see `popVar`). -/
structure TeamRoundRow where
  round : ℤ
  team : String
  avg_pit_s : ℚ
  p25_pit_s : ℚ
  p50_pit_s : ℚ
  p75_pit_s : ℚ
  best_pit_s : ℚ
  consistencySq : ℚ
  n_stops : ℤ
deriving DecidableEq

/-- Embeds the row construction of `_team_round_metrics` (chapter 4,
lines 272-285). -/
def teamRoundRow (round : ℤ) (team : String) (vals : List ℚ) : TeamRoundRow :=
  ⟨round, team, pyRound3 (listMean vals), pyRound3 (pandasQuantile vals (1 / 4)),
    pyRound3 (pandasQuantile vals (1 / 2)), pyRound3 (pandasQuantile vals (3 / 4)),
    pyRound3 (listMin vals), popVar vals, vals.length⟩

/-- One row of the season-level team pit table (chapter 4 `main`,
lines 463-472).  `consistencySq` is the square of the emitted
`consistency_s` (population standard deviation; see `popVar`). -/
structure TeamSeasonRow where
  team : String
  avg_pit_s : ℚ
  consistencySq : ℚ
  best_pit_s : ℚ
  n_stops : ℤ
  undercut_success : Option ℚ
deriving DecidableEq

/-- Embeds the season team row construction: mean, population standard
deviation (carried squared), minimum and count of the team's stop
durations across all processed rounds, plus the undercut success ratio
(`None` when the team has zero attempts). -/
def teamSeasonRow (team : String) (vals : List ℚ) (succ att : ℤ) : TeamSeasonRow :=
  ⟨team, pyRound3 (listMean vals), popVar vals, pyRound3 (listMin vals), vals.length,
    if att = 0 then none else some (pyRound3 ((succ : ℚ) / (att : ℚ)))⟩

/-!
Chapter 5 (`export_chapter5_overtakes.py`): pass inference with cooldown
de-duplication, lap-count normalisation, pass rate, processional index and
the DRS-share proxy.
-/

/-- The fixed pass cooldown `PASS_COOLDOWN_S = 8.0`. -/
def PASS_COOLDOWN_S : ℚ := 8

/-- An inferred pass event (`_infer_passes` appends
`driver_number` / `date_ts` / `passes_gained`). -/
structure PassEvent where
  driver : ℤ
  ts : ℚ
  gained : ℤ
deriving DecidableEq

/-- The loop state of `_infer_passes` for one driver: accumulated
`passes_made`, the timestamp of the last counted pass (`NaT` initially),
the previous sample's position, and the emitted events. -/
structure PassState where
  passes : ℤ
  lastTs : Option ℚ
  prevPos : Option ℤ
  events : List PassEvent
deriving DecidableEq

/-- One iteration of the per-sample walk in `_infer_passes`: a position
gain of at least one place is counted unless the last counted pass is less
than `PASS_COOLDOWN_S` seconds old; a counted pass advances `lastTs`, a
suppressed gain does not. -/
def inferStep (d : ℤ) (st : PassState) (s : ℤ × ℚ) : PassState :=
  match st.prevPos with
  | none => { st with prevPos := some s.1 }
  | some prev =>
    let gain := prev - s.1
    if 1 ≤ gain then
      match st.lastTs with
      | none =>
        { passes := st.passes + gain, lastTs := some s.2, prevPos := some s.1,
          events := st.events ++ [⟨d, s.2, gain⟩] }
      | some t =>
        if PASS_COOLDOWN_S ≤ s.2 - t then
          { passes := st.passes + gain, lastTs := some s.2, prevPos := some s.1,
            events := st.events ++ [⟨d, s.2, gain⟩] }
        else { st with prevPos := some s.1 }
    else { st with prevPos := some s.1 }

/-- One driver's pass inference (`_infer_passes` group body): sort the
samples by timestamp, walk them with `inferStep`, and report the events,
`passes_made`, and `positions_gained_net` (first sampled position minus
last sampled position). -/
def inferDriver (d : ℤ) (samples : List (ℤ × ℚ)) : List PassEvent × ℤ × ℤ :=
  match List.insertionSort (fun a b => a.2 ≤ b.2) samples with
  | [] => ([], 0, 0)
  | s0 :: rest =>
    let fin := (s0 :: rest).foldl (inferStep d) ⟨0, none, none, []⟩
    (fin.events, fin.passes, s0.1 - (rest.getLastD s0).1)

/-- Embeds `_infer_passes` over the grouped position frame: events are
concatenated over drivers, and each non-empty group contributes its
(`passes_made`, `positions_gained_net`) stats. -/
def inferPasses (groups : List (ℤ × List (ℤ × ℚ))) :
    List PassEvent × List (ℤ × ℤ × ℤ) :=
  ((groups.map (fun g => (inferDriver g.1 g.2).1)).flatten,
   groups.filterMap (fun g =>
     if g.2 = [] then none
     else some (g.1, (inferDriver g.1 g.2).2.1, (inferDriver g.1 g.2).2.2)))

/-- A cleaned row of the OpenF1 `/position` frame (`_fetch_position_df`
output): driver, integer position and timestamp are present, the lap
number may be NaN. -/
structure PosSample where
  driver : ℤ
  pos : ℤ
  ts : ℚ
  lap : Option ℤ
deriving DecidableEq

/-- Embeds `_laps_completed_total`: sum over drivers of the maximal lap
number seen in the position frame; when the frame has no lap-numbered
rows, fall back to the FastF1 lap table (`none` models a failed load or a
missing `Driver` column; each list entry is a lap row's driver key, `none`
for NaN, and the groupby size sum counts the keyed rows), else `0`. -/
def lapsCompletedTotal (samples : List PosSample) (fastf1Laps : Option (List (Option String))) : ℤ :=
  let lapRows := samples.filterMap (fun s => s.lap.map (fun l => (s.driver, l)))
  if lapRows ≠ [] then
    let drivers := dedupBy id (lapRows.map (·.1))
    (drivers.map (fun d => listMaxZ ((lapRows.filter (fun r => r.1 == d)).map (·.2)))).sum
  else
    match fastf1Laps with
    | none => 0
    | some rows => ((rows.filterMap id).length : ℤ)

/-- Embeds `pass_rate = 0.0 if laps_total <= 0 else total_overtakes / laps_total`
(chapter 5 `main`, line 333). -/
def passRate (overtakes laps : ℤ) : ℚ :=
  if laps ≤ 0 then 0 else (overtakes : ℚ) / (laps : ℚ)

/-- The rescaling of one round's pass rate over the run's min-to-max range
(chapter 5 `main`, lines 362-376): 50 when all rates coincide, otherwise
the inverted linear interpolation scaled to 0-100. -/
def processionalScore (rates : List ℚ) (r : ℚ) : ℚ :=
  if listMax rates = listMin rates then 50
  else (1 - (r - listMin rates) / (listMax rates - listMin rates)) * 100

/-- Embeds `row["processional_index"] = int(round(score))`. -/
def processionalIndex (rates : List ℚ) (r : ℚ) : ℤ :=
  pyRoundInt (processionalScore rates r)

/-- The DRS samples aligned to one driver (`by_driver` in `_drs_share`):
the timestamps of that driver's rows of the filtered car-data frame (which
`_fetch_car_drs_df` already restricted to `drs_flag > 0`). -/
def drsSamples (drs : List (ℤ × ℚ)) (d : ℤ) : List ℚ :=
  (drs.filter (fun p => p.1 == d)).map (·.2)

/-- The pass events whose driver has any aligned DRS sample (the events
that increment `aligned`). -/
def alignedEvents (events : List PassEvent) (drs : List (ℤ × ℚ)) : List PassEvent :=
  events.filter (fun e => !(drsSamples drs e.driver).isEmpty)

/-- Whether some DRS sample of the event's driver falls within the two
seconds preceding the pass timestamp (`window_start <= sample <= ts`). -/
def drsInWindow (drs : List (ℤ × ℚ)) (e : PassEvent) : Bool :=
  (drsSamples drs e.driver).any (fun s => decide (e.ts - 2 ≤ s) && decide (s ≤ e.ts))

/-- Embeds `drs_passes`: the summed gains of the aligned events with a DRS sample
in the two-second window. -/
def drsActiveGains (events : List PassEvent) (drs : List (ℤ × ℚ)) : ℤ :=
  (((alignedEvents events drs).filter (drsInWindow drs)).map (·.gained)).sum

/-- Embeds `total_passes`: the summed gains of all pass events of the round. -/
def totalGains (events : List PassEvent) : ℤ :=
  (events.map (·.gained)).sum

/-- Embeds `_drs_share`: `None` without passes or car data, `None` when no
pass has an aligned sample (`aligned == 0`) or the total gains vanish;
otherwise `round(drs_passes / total_passes, 3)` — the denominator sums the
gains of all passes, aligned or not. -/
def drsShare (events : List PassEvent) (drs : List (ℤ × ℚ)) : Option ℚ :=
  if events = [] ∨ drs = [] then none
  else if (alignedEvents events drs).length = 0 then none
  else if totalGains events = 0 then none
  else some (pyRound3 ((drsActiveGains events drs : ℚ) / (totalGains events : ℚ)))

/-- Definition following the specification's words for claim C6: the ratio
restricted to the passes for which any DRS sample exists at all — both the
DRS-active numerator and the total-passes denominator range over the
aligned events only.  Compared against the source embedding `drsShare`. -/
def drsShareClaimed (events : List PassEvent) (drs : List (ℤ × ℚ)) : Option ℚ :=
  let al := alignedEvents events drs
  if al = [] then none
  else if totalGains al = 0 then none
  else some (pyRound3 ((drsActiveGains events drs : ℚ) / (totalGains al : ℚ)))

/-- One value of the chapter-5 per-round driver maps
(`_driver_map_openf1` / `_driver_map_fastf1`): display code and team,
already stripped, possibly `""`. -/
structure Meta5 where
  driver : String
  team : String
deriving DecidableEq

/-- Association-list lookup for the chapter-5 maps. -/
def metaLookup5 (m : List (ℤ × Meta5)) (n : ℤ) : Option Meta5 :=
  (m.find? (fun p => p.1 == n)).map (·.2)

/-- Embeds `merged_meta = {**fastf1_map, **openf1_map}` (chapter 5 `main`,
line 325) as a lookup: an OpenF1 entry replaces the FastF1 entry for the
same driver number wholesale. -/
def mergedMeta5 (fastf1 openf1 : List (ℤ × Meta5)) (n : ℤ) : Option Meta5 :=
  match metaLookup5 openf1 n with
  | some m => some m
  | none => metaLookup5 fastf1 n

/-- A row of the chapter-5 `driver_passing` output table. -/
structure DriverPassingRow where
  driver : String
  team : String
  passes_made : ℤ
  positions_gained_net : ℤ
deriving DecidableEq

/-- Embeds the `driver_passing` row emission (chapter 5 `main`,
lines 389-401): `driver = str(meta.get("driver") or number)` and
`team = str(meta.get("team") or "Unknown")` over the accumulated season
stats, with `meta = driver_meta.get(number, {})`. -/
def driverPassingRow (meta : Option Meta5) (n : ℤ) (passes net : ℤ) : DriverPassingRow :=
  ⟨(match pyTruthy (meta.map (·.driver)) with
    | some s => s
    | none => toString n),
   (match pyTruthy (meta.map (·.team)) with
    | some s => s
    | none => "Unknown"),
   passes, net⟩

/-!
The round resolver (`_fetch_openf1_race_sessions`, `_fetch_schedule_rounds`
and `_resolve_rounds_with_sessions` of chapter 4).  Date formatting of the
schedule's event date is out of scope; dates stay rational timestamps.
-/

/-- A raw OpenF1 `/sessions` record after numeric coercion of
`session_key` (NaN becomes `none`). -/
structure RawSession where
  session_key : Option ℤ
  session_name : String
  date_start : Option ℚ
deriving DecidableEq

/-- The OpenF1 `/sessions` response: rows plus presence of the required
columns in the frame. -/
structure SessionsResponse where
  rows : List RawSession
  hasSessionKey : Bool
  hasSessionName : Bool
  hasDateStart : Bool
deriving DecidableEq

/-- A usable race session surviving the filter/dropna/dedup chain. -/
structure SessionRec where
  session_key : ℤ
  date_start : Option ℚ
deriving DecidableEq

/-- Sort order on optional timestamps: pandas `sort_values` places NaT
last. -/
def dateLe (a b : Option ℚ) : Prop :=
  match a, b with
  | some x, some y => x ≤ y
  | some _, none => True
  | none, some _ => False
  | none, none => True

instance : DecidableRel dateLe := fun a b => by
  unfold dateLe
  match a, b with
  | some x, some y => exact inferInstanceAs (Decidable (x ≤ y))
  | some _, none => exact inferInstanceAs (Decidable True)
  | none, some _ => exact inferInstanceAs (Decidable False)
  | none, none => exact inferInstanceAs (Decidable True)

/-- Python `.str.lower()`, character by character over the string data
(`String.toLower` itself recurses by well-founded byte positions, which
blocks definitional evaluation; this map is extensionally the same). -/
def strLower (s : String) : String := ⟨s.data.map Char.toLower⟩

/-- Embeds `_fetch_openf1_race_sessions`: raises on an empty raw response
or missing required columns; otherwise keep the rows whose lowercased
session name is `"race"` and whose session key is numeric, sort by start
date, and deduplicate by session key keeping the first. -/
def fetchOpenf1RaceSessions (resp : SessionsResponse) : Except String (List SessionRec) :=
  if resp.rows = [] then
    .error "OpenF1 sessions returned no 2025 race sessions."
  else if ¬(resp.hasSessionKey ∧ resp.hasSessionName ∧ resp.hasDateStart) then
    .error "OpenF1 sessions missing required columns."
  else
    let filtered := resp.rows.filter (fun r => strLower r.session_name == "race")
    let keyed := filtered.filterMap (fun r => r.session_key.map (fun k => SessionRec.mk k r.date_start))
    let sorted := List.insertionSort (fun a b => dateLe a.date_start b.date_start) keyed
    .ok (dedupBy (·.session_key) sorted)

/-- A raw FastF1 schedule row after numeric coercion of `RoundNumber`. -/
structure RawSchedRow where
  roundNumber : Option ℤ
  eventName : String
  eventDate : Option ℚ
deriving DecidableEq

/-- The FastF1 schedule: rows plus presence of the required columns. -/
structure ScheduleResponse where
  rows : List RawSchedRow
  hasRoundNumber : Bool
  hasEventName : Bool
  hasEventDate : Bool
deriving DecidableEq

/-- A usable schedule round surviving dropna / positivity / dedup. -/
structure SchedRec where
  round : ℤ
  event : String
  date : Option ℚ
deriving DecidableEq

/-- Embeds `_fetch_schedule_rounds`: raises only on missing required
columns (an empty frame is not an error); otherwise drop non-numeric round
numbers, keep positive ones, sort by round number and deduplicate keeping
the first. -/
def fetchScheduleRounds (resp : ScheduleResponse) : Except String (List SchedRec) :=
  if ¬(resp.hasRoundNumber ∧ resp.hasEventName ∧ resp.hasEventDate) then
    .error "FastF1 schedule missing required columns."
  else
    let keyed := resp.rows.filterMap (fun r => r.roundNumber.map (fun n => SchedRec.mk n r.eventName r.eventDate))
    let pos := keyed.filter (fun r => decide (0 < r.round))
    let sorted := List.insertionSort (fun a b => a.round ≤ b.round) pos
    .ok (dedupBy (·.round) sorted)

/-- A resolved round record. -/
structure RoundRec where
  round : ℤ
  event : String
  date : Option ℚ
  session_key : ℤ
deriving DecidableEq

/-- Embeds `_resolve_rounds_with_sessions`: fetch both providers' lists
and zip them positionally; the i-th chronological session is paired with
the i-th round, and the output length is the smaller of the two list
lengths — `count == 0` yields an empty round list, not an error. -/
def resolveRoundsWithSessions (s : SessionsResponse) (sch : ScheduleResponse) :
    Except String (List RoundRec) := do
  let sessions ← fetchOpenf1RaceSessions s
  let rounds ← fetchScheduleRounds sch
  pure (List.zipWith (fun (r : SchedRec) (se : SessionRec) =>
    RoundRec.mk r.round r.event r.date se.session_key) rounds sessions)

/-!
Supporting lemmas for the pit-duration validity invariant.
-/

theorem fetchPitDf_mem_bounds {pr : PitResponse} {x : PitRow} (hx : x ∈ fetchPitDf pr) :
    0 < x.pit_s ∧ x.pit_s < 120 := by
  unfold fetchPitDf at hx
  split at hx
  · cases hx
  · split at hx
    · cases hx
    · rcases List.mem_filterMap.mp hx with ⟨r, _, hr⟩
      rcases hd : rowDuration pr r with _ | d
      · rw [hd] at hr; cases hr
      · rw [hd] at hr
        simp only at hr
        split at hr
        · rcases hn : r.driver_number with _ | dn
          · rw [hn] at hr; cases hr
          · rw [hn] at hr
            rename_i hcond
            cases hr
            exact hcond
        · cases hr

theorem emitFallbackRow_bounds {g : List FLap} {d : String} {r : FLap} {x : FallbackRow}
    (h : emitFallbackRow g d r = some x) : 0 < x.pit_s ∧ x.pit_s < 120 := by
  unfold emitFallbackRow at h
  split at h
  · cases h
  · split at h
    · cases h
    · split at h
      · cases h
      · split at h
        · cases h
        · simp only at h
          split at h
          · rename_i hcond
            cases h
            exact hcond
          · cases h

theorem fetchFastf1PitDf_mem_bounds {lt : Option LapsTable} {x : FallbackRow}
    (hx : x ∈ fetchFastf1PitDf lt) : 0 < x.pit_s ∧ x.pit_s < 120 := by
  unfold fetchFastf1PitDf at hx
  split at hx
  · cases hx
  · split at hx
    · cases hx
    · split at hx
      · cases hx
      · rcases List.mem_flatten.mp hx with ⟨l, hl, hxl⟩
        rcases List.mem_map.mp hl with ⟨d, _, rfl⟩
        rcases List.mem_filterMap.mp hxl with ⟨r, _, hr⟩
        exact emitFallbackRow_bounds hr

theorem fillRow_pit_s (openf1 fastf1 : List (ℤ × Meta4)) (r : MappedRow) :
    (fillRow openf1 fastf1 r).pit_s = r.pit_s := by
  unfold fillRow
  split <;> rfl

theorem ch4RoundPits_mem_bounds {pr : PitResponse} {lt : Option LapsTable}
    {openf1 fastf1 : List (ℤ × Meta4)} {e : MappedRow}
    (he : e ∈ ch4RoundPits pr lt openf1 fastf1) : 0 < e.pit_s ∧ e.pit_s < 120 := by
  unfold ch4RoundPits at he
  rcases List.mem_map.mp he with ⟨r, hr, rfl⟩
  rw [fillRow_pit_s]
  split at hr
  · rcases List.mem_map.mp hr with ⟨f, hf, rfl⟩
    exact fetchFastf1PitDf_mem_bounds hf
  · rcases List.mem_map.mp hr with ⟨p, hp, rfl⟩
    exact fetchPitDf_mem_bounds hp

/-- C2: every pit-stop event entering a per-round or season aggregate —
from the OpenF1 pit records or from the FastF1 lap-table fallback — has
`0 < duration_seconds < 120`; records with missing, zero or out-of-range
durations are discarded by `_fetch_pit_df` / `_fetch_fastf1_pit_df`
before any aggregation.  `ch4RoundPits` is exactly the row set feeding
the per-round team table, the race summary, the undercut proxy and the
season concatenation `ch4SeasonPits`. -/
theorem c2_theorem :
    (∀ (pr : PitResponse) (lt : Option LapsTable) (openf1 fastf1 : List (ℤ × Meta4)),
      ∀ e ∈ ch4RoundPits pr lt openf1 fastf1, 0 < e.pit_s ∧ e.pit_s < 120) ∧
    (∀ (rd : List (PitResponse × Option LapsTable × List (ℤ × Meta4) × List (ℤ × Meta4))),
      ∀ e ∈ ch4SeasonPits rd, 0 < e.pit_s ∧ e.pit_s < 120) := by
  constructor
  · intro pr lt openf1 fastf1 e he
    exact ch4RoundPits_mem_bounds he
  · intro rd e he
    unfold ch4SeasonPits at he
    rcases List.mem_flatten.mp he with ⟨l, hl, hel⟩
    rcases List.mem_map.mp hl with ⟨x, _, rfl⟩
    exact ch4RoundPits_mem_bounds hel

/-- Witness for C2: a concrete OpenF1 pit response with one valid record
yields one mapped row, and the theorem bounds its duration. -/
theorem c2_witness :
    0 < (MappedRow.mk (some 44) "HAM" "Mercedes" (some 3) 25).pit_s ∧
      (MappedRow.mk (some 44) "HAM" "Mercedes" (some 3) 25).pit_s < 120 := by
  have hmem : MappedRow.mk (some 44) "HAM" "Mercedes" (some 3) 25 ∈
      ch4RoundPits ⟨[⟨some 25, none, none, some 44, some 3⟩], true, false, false⟩ none
        [(44, ⟨"HAM", "Mercedes", "Lewis"⟩)] [] := by
    simp only [ch4RoundPits,
      show fetchPitDf ⟨[⟨some 25, none, none, some 44, some 3⟩], true, false, false⟩ =
        [⟨25, 44, some 3⟩] by norm_num [fetchPitDf, rowDuration, List.filterMap],
      List.map, pitToMapped, fillRow]
    norm_num [mapDriverMeta, metaLookup, pyTruthy, List.find?]
    decide
  exact (c2_theorem.1 _ _ _ _ _ hmem)

/-!
Claim C1: provider precedence in driver identity reconciliation.
-/

theorem pyTruthy_eq_some {x : Option String} {s : String} (h : pyTruthy x = some s) :
    x = some s ∧ s ≠ "" := by
  unfold pyTruthy at h
  match x with
  | none => cases h
  | some t =>
    simp only at h
    split at h
    · cases h
    · cases h; rename_i hne; exact ⟨rfl, hne⟩

/-- C1 counterexample: with both providers supplying non-empty fields for
driver 1, `map_driver_meta` returns the OpenF1 (secondary-provider)
fields, while the claim's primary-provider-precedence rule
(`mapDriverMetaSpec`) returns the FastF1 fields; the two disagree. -/
theorem c1_counterexample :
    mapDriverMeta [(1, ⟨"OPN", "OTeam", "o"⟩)] [(1, ⟨"FST", "FTeam", "f"⟩)] 1 =
      ("OPN", "OTeam") ∧
    mapDriverMetaSpec [(1, ⟨"OPN", "OTeam", "o"⟩)] [(1, ⟨"FST", "FTeam", "f"⟩)] 1 =
      ("FST", "FTeam") ∧
    mapDriverMeta [(1, ⟨"OPN", "OTeam", "o"⟩)] [(1, ⟨"FST", "FTeam", "f"⟩)] 1 ≠
      mapDriverMetaSpec [(1, ⟨"OPN", "OTeam", "o"⟩)] [(1, ⟨"FST", "FTeam", "f"⟩)] 1 := by
  refine ⟨by decide, by decide, by decide⟩

/-- C1 amended: per round, the reconciliation maps each driver number to a
code and team with the secondary provider's (OpenF1) fields taking
precedence when non-empty, falling back to the primary provider's
(FastF1) fields, and otherwise to the stringified driver number and the
literal `"Unknown"`; in chapter 5 the merge is per-entry with the OpenF1
entry winning wholesale. -/
theorem c1_theorem :
    (∀ (o f : List (ℤ × Meta4)) (n : ℤ) (m : Meta4),
      metaLookup o n = some m → m.abbr ≠ "" → (mapDriverMeta o f n).1 = m.abbr) ∧
    (∀ (o f : List (ℤ × Meta4)) (n : ℤ) (m : Meta4),
      metaLookup o n = some m → m.team ≠ "" → (mapDriverMeta o f n).2 = m.team) ∧
    (∀ (o f : List (ℤ × Meta4)) (n : ℤ) (m : Meta4),
      pyTruthy ((metaLookup o n).map (fun m4 => m4.abbr)) = none →
      metaLookup f n = some m → m.abbr ≠ "" → (mapDriverMeta o f n).1 = m.abbr) ∧
    (∀ (o f : List (ℤ × Meta4)) (n : ℤ) (m : Meta4),
      pyTruthy ((metaLookup o n).map (fun m4 => m4.team)) = none →
      metaLookup f n = some m → m.team ≠ "" → (mapDriverMeta o f n).2 = m.team) ∧
    (∀ (o f : List (ℤ × Meta4)) (n : ℤ),
      pyTruthy ((metaLookup o n).map (fun m4 => m4.abbr)) = none →
      pyTruthy ((metaLookup f n).map (fun m4 => m4.abbr)) = none →
      (mapDriverMeta o f n).1 = toString n) ∧
    (∀ (o f : List (ℤ × Meta4)) (n : ℤ),
      pyTruthy ((metaLookup o n).map (fun m4 => m4.team)) = none →
      pyTruthy ((metaLookup f n).map (fun m4 => m4.team)) = none →
      (mapDriverMeta o f n).2 = "Unknown") ∧
    (∀ (fmap omap : List (ℤ × Meta5)) (n : ℤ) (m : Meta5),
      metaLookup5 omap n = some m → mergedMeta5 fmap omap n = some m) ∧
    (∀ (fmap omap : List (ℤ × Meta5)) (n : ℤ),
      metaLookup5 omap n = none → mergedMeta5 fmap omap n = metaLookup5 fmap n) := by
  refine ⟨?_, ?_, ?_, ?_, ?_, ?_, ?_, ?_⟩
  · intro o f n m hm hne
    unfold mapDriverMeta
    rw [hm]
    simp [pyTruthy, hne]
  · intro o f n m hm hne
    unfold mapDriverMeta
    rw [hm]
    simp [pyTruthy, hne]
  · intro o f n m ho hm hne
    simp only [mapDriverMeta]
    rw [ho, hm]
    simp [pyTruthy, hne]
  · intro o f n m ho hm hne
    simp only [mapDriverMeta]
    rw [ho, hm]
    simp [pyTruthy, hne]
  · intro o f n ho hf
    simp only [mapDriverMeta]
    rw [ho, hf]
  · intro o f n ho hf
    simp only [mapDriverMeta]
    rw [ho, hf]
  · intro fmap omap n m hm
    unfold mergedMeta5
    rw [hm]
  · intro fmap omap n hm
    unfold mergedMeta5
    rw [hm]

/-- Witness for C1: the amended precedence evaluated at concrete maps. -/
theorem c1_witness :
    (mapDriverMeta [(1, ⟨"OPN", "OTeam", "o"⟩)] [(1, ⟨"FST", "FTeam", "f"⟩)] 1).1 = "OPN" ∧
    (mapDriverMeta [] [(1, ⟨"FST", "FTeam", "f"⟩)] 1).1 = "FST" ∧
    (mapDriverMeta [] [] 7).1 = toString (7 : ℤ) ∧
    (mapDriverMeta [] [] 7).2 = "Unknown" ∧
    mergedMeta5 [(1, ⟨"fs", "ft"⟩)] [(1, ⟨"os", "ot"⟩)] 1 = some ⟨"os", "ot"⟩ := by
  refine ⟨?_, ?_, ?_, ?_, ?_⟩
  · exact c1_theorem.1 _ _ 1 ⟨"OPN", "OTeam", "o"⟩ (by decide) (by decide)
  · exact c1_theorem.2.2.1 _ _ 1 ⟨"FST", "FTeam", "f"⟩ (by decide) (by decide) (by decide)
  · exact c1_theorem.2.2.2.2.1 _ _ 7 (by decide) (by decide)
  · exact c1_theorem.2.2.2.2.2.1 _ _ 7 (by decide) (by decide)
  · exact c1_theorem.2.2.2.2.2.2.1 _ _ 1 ⟨"os", "ot"⟩ (by decide)

/-!
Claims C3 and C10: cooldown de-duplication in pass inference.
-/

/-- C3: on the position series `[(t0,5), (t0+1s,5), (t0+3s,3), (t0+9s,2)]`
the inference emits exactly one `PassEvent`, at `t0+3s` with gain 2; the
gain of 1 at `t0+9s` falls 6 seconds after the last counted pass, inside
the 8-second cooldown, and is suppressed, so `passes_made` is 2 (not 3)
and `positions_gained_net` is 3. -/
theorem c3_theorem : ∀ t0 : ℚ,
    inferDriver 7 [(5, t0), (5, t0 + 1), (3, t0 + 3), (2, t0 + 9)] =
      ([⟨7, t0 + 3, 2⟩], 2, 3) := by
  intro t0
  norm_num [inferDriver, inferStep, List.insertionSort, List.orderedInsert, PASS_COOLDOWN_S,
    List.getLastD, add_le_add_iff_left,
    show t0 + 9 - (t0 + 3) = 6 by ring]

/-- C10: with a previously counted pass at `tp`, a gain of at least one
place at `ts` is suppressed exactly when `ts - tp` is strictly below the
8-second cooldown — a gain at exactly 8 seconds is emitted — and a
suppressed gain leaves the cooldown anchor (`lastTs`, the last counted
pass) unchanged; with no previously counted pass, every gain is emitted. -/
theorem c10_theorem :
    (∀ (d : ℤ) (st : PassState) (prev pos : ℤ) (ts tp : ℚ),
      st.prevPos = some prev → st.lastTs = some tp → 1 ≤ prev - pos →
      ((ts - tp < PASS_COOLDOWN_S →
        inferStep d st (pos, ts) = { st with prevPos := some pos }) ∧
       (PASS_COOLDOWN_S ≤ ts - tp →
        inferStep d st (pos, ts) =
          { passes := st.passes + (prev - pos), lastTs := some ts, prevPos := some pos,
            events := st.events ++ [⟨d, ts, prev - pos⟩] }))) ∧
    (∀ (d : ℤ) (st : PassState) (prev pos : ℤ) (ts : ℚ),
      st.prevPos = some prev → st.lastTs = none → 1 ≤ prev - pos →
      inferStep d st (pos, ts) =
        { passes := st.passes + (prev - pos), lastTs := some ts, prevPos := some pos,
          events := st.events ++ [⟨d, ts, prev - pos⟩] }) := by
  constructor
  · intro d st prev pos ts tp hprev hlast hgain
    constructor
    · intro hcool
      simp only [inferStep, hprev, hlast, if_pos hgain, if_neg (not_le.mpr hcool)]
    · intro hcool
      simp only [inferStep, hprev, hlast, if_pos hgain, if_pos hcool]
  · intro d st prev pos ts hprev hlast hgain
    simp only [inferStep, hprev, hlast, if_pos hgain]

/-- Witness for C10: from a counted pass at `t = 0`, a one-place gain at
`t = 8` (exactly the cooldown) is emitted, and a one-place gain at `t = 7`
is suppressed with the anchor still at `0`. -/
theorem c10_witness :
    inferStep 7 ⟨0, some 0, some 5, []⟩ (4, 8) =
      { passes := 0 + (5 - 4), lastTs := some 8, prevPos := some 4,
        events := [] ++ [⟨7, 8, 5 - 4⟩] } ∧
    inferStep 7 ⟨0, some 0, some 5, []⟩ (4, 7) =
      { passes := 0, lastTs := some 0, prevPos := some 4, events := [] } := by
  constructor
  · exact (c10_theorem.1 7 ⟨0, some 0, some 5, []⟩ 5 4 8 0 rfl rfl (by norm_num)).2
      (by norm_num [PASS_COOLDOWN_S])
  · exact (c10_theorem.1 7 ⟨0, some 0, some 5, []⟩ 5 4 7 0 rfl rfl (by norm_num)).1
      (by norm_num [PASS_COOLDOWN_S])

/-!
Claim C4: the processional index.
-/

/-- C4: for every processed round (whose pass rate is one of the run's
collected rates) the processional index lies in `[0, 100]` and is the
inverted linear rescaling of the round's pass rate over the run's
min-to-max range; when all processed rounds share one pass rate
(including the single-round case) each round's index is 50; with exactly
two rounds of pass rates 0.02 and 0.08, the 0.02 round scores 100 and the
0.08 round scores 0. -/
theorem c4_theorem :
    (∀ (rates : List ℚ) (r : ℚ), r ∈ rates →
      0 ≤ processionalIndex rates r ∧ processionalIndex rates r ≤ 100) ∧
    (∀ (rates : List ℚ) (r : ℚ), r ∈ rates →
      listMin rates ≠ listMax rates →
      processionalIndex rates r =
        pyRoundInt ((1 - (r - listMin rates) / (listMax rates - listMin rates)) * 100)) ∧
    (∀ (rates : List ℚ) (r : ℚ), r ∈ rates → (∀ x ∈ rates, x = r) →
      processionalIndex rates r = 50) ∧
    processionalIndex [1 / 50, 2 / 25] (1 / 50) = 100 ∧
    processionalIndex [1 / 50, 2 / 25] (2 / 25) = 0 := by
  have h50 : pyRoundInt 50 = 50 := by norm_num [pyRoundInt]
  refine ⟨?_, ?_, ?_, ?_, ?_⟩
  · intro rates r hr
    have hmn := listMin_le_of_mem hr
    have hmx := le_listMax_of_mem hr
    unfold processionalIndex processionalScore
    split
    · rw [h50]; exact ⟨by norm_num, by norm_num⟩
    · rename_i hne
      have hlt : listMin rates < listMax rates :=
        lt_of_le_of_ne (le_trans hmn hmx) (fun h => hne h.symm)
      have hD : 0 < listMax rates - listMin rates := by linarith
      have hfrac0 : 0 ≤ (r - listMin rates) / (listMax rates - listMin rates) :=
        div_nonneg (by linarith) (le_of_lt hD)
      have hfrac1 : (r - listMin rates) / (listMax rates - listMin rates) ≤ 1 :=
        (div_le_one hD).mpr (by linarith)
      exact pyRoundInt_mem_range (by nlinarith) (by nlinarith)
  · intro rates r _ hne
    unfold processionalIndex processionalScore
    rw [if_neg (fun h => hne h.symm)]
  · intro rates r hr hall
    have hne : rates ≠ [] := List.ne_nil_of_mem hr
    unfold processionalIndex processionalScore
    rw [listMin_allEq hne hall, listMax_allEq hne hall, if_pos rfl, h50]
  · norm_num [processionalIndex, processionalScore, listMin, listMax, pyRoundInt, min_def, max_def]
  · norm_num [processionalIndex, processionalScore, listMin, listMax, pyRoundInt, min_def, max_def]

/-- Witness for C4: at a one-round run the index is bounded and equals 50. -/
theorem c4_witness :
    (0 ≤ processionalIndex [1 / 2] (1 / 2) ∧ processionalIndex [1 / 2] (1 / 2) ≤ 100) ∧
    processionalIndex [1 / 2] (1 / 2) = 50 :=
  ⟨c4_theorem.1 [1 / 2] (1 / 2) (by simp),
   c4_theorem.2.2.1 [1 / 2] (1 / 2) (by simp) (by simp)⟩

/-!
Claim C5: pass-rate totality.
-/

/-- C5: `pass_rate` is total — it equals `total_overtakes / total_laps`
whenever `total_laps > 0` and is exactly `0` whenever `total_laps ≤ 0`,
including when the position series carries no lap numbers and the FastF1
lap table is unavailable (`_laps_completed_total` then returns `0`). -/
theorem c5_theorem :
    (∀ o l : ℤ, 0 < l → passRate o l = (o : ℚ) / (l : ℚ)) ∧
    (∀ o l : ℤ, l ≤ 0 → passRate o l = 0) ∧
    (∀ o : ℤ, passRate o (lapsCompletedTotal [] none) = 0) := by
  refine ⟨?_, ?_, ?_⟩
  · intro o l h
    unfold passRate
    rw [if_neg (not_le.mpr h)]
  · intro o l h
    unfold passRate
    rw [if_pos h]
  · intro o
    rfl

/-- Witness for C5: concrete rates on both sides of the guard. -/
theorem c5_witness :
    passRate 6 3 = (6 : ℚ) / (3 : ℚ) ∧ passRate 6 (-2) = 0 ∧
    passRate 5 (lapsCompletedTotal [] none) = 0 :=
  ⟨c5_theorem.1 6 3 (by norm_num), c5_theorem.2.1 6 (-2) (by norm_num), c5_theorem.2.2 5⟩

/-!
Claim C6: the DRS-share proxy.
-/

theorem totalGains_pos {evs : List PassEvent} (hg : ∀ e ∈ evs, 1 ≤ e.gained)
    (hne : evs ≠ []) : 1 ≤ totalGains evs := by
  match evs with
  | [] => exact absurd rfl hne
  | e :: rest =>
    have h1 : 1 ≤ e.gained := hg e (List.mem_cons_self e rest)
    have h0 : 0 ≤ (rest.map (fun x => x.gained)).sum := by
      apply List.sum_nonneg
      intro x hx
      rcases List.mem_map.mp hx with ⟨y, hy, rfl⟩
      exact le_trans (by norm_num) (hg y (List.mem_cons_of_mem e hy))
    unfold totalGains
    simp only [List.map_cons, List.sum_cons]
    linarith

/-- C6 counterexample: with one pass whose driver has an aligned DRS
sample inside the window and one pass whose driver has no DRS sample at
all, `_drs_share` divides by the gains of *all* passes and returns `0.5`,
while the claim's sample-restricted ratio (`drsShareClaimed`) returns
`1.0`; the two disagree. -/
theorem c6_counterexample :
    drsShare [⟨1, 10, 1⟩, ⟨2, 10, 1⟩] [(1, 9)] = some (1 / 2) ∧
    drsShareClaimed [⟨1, 10, 1⟩, ⟨2, 10, 1⟩] [(1, 9)] = some 1 ∧
    drsShare [⟨1, 10, 1⟩, ⟨2, 10, 1⟩] [(1, 9)] ≠
      drsShareClaimed [⟨1, 10, 1⟩, ⟨2, 10, 1⟩] [(1, 9)] := by
  have hal : alignedEvents [⟨1, 10, 1⟩, ⟨2, 10, 1⟩] [(1, 9)] = [⟨1, 10, 1⟩] := rfl
  have hw : drsInWindow [(1, 9)] ⟨1, 10, 1⟩ = true := by
    norm_num [drsInWindow, drsSamples, List.filter, List.any]
  have h1 : drsShare [⟨1, 10, 1⟩, ⟨2, 10, 1⟩] [(1, 9)] = some (1 / 2) := by
    norm_num [drsShare, hal, drsActiveGains, totalGains, hw, List.filter,
      pyRound3, pyRoundInt, List.cons_ne_nil]
  have h2 : drsShareClaimed [⟨1, 10, 1⟩, ⟨2, 10, 1⟩] [(1, 9)] = some 1 := by
    norm_num [drsShareClaimed, hal, drsActiveGains, totalGains, hw, List.filter,
      pyRound3, pyRoundInt, List.cons_ne_nil]
  refine ⟨h1, h2, ?_⟩
  rw [h1, h2]
  norm_num

theorem alignedEvents_nil_iff {evs : List PassEvent} {drs : List (ℤ × ℚ)} :
    alignedEvents evs drs = [] ↔ ∀ e ∈ evs, drsSamples drs e.driver = [] := by
  unfold alignedEvents
  rw [List.filter_eq_nil_iff]
  constructor
  · intro h e he
    have := h e he
    simpa using this
  · intro h e he
    simp [h e he]

/-- C6 amended: over pass events with positive gains, `_drs_share` is
indeterminate (`None`) exactly when there is no car data or no pass whose
driver has any aligned DRS sample — never `0.0` in that case — and any
determinate share equals `round(drs_passes / total_passes, 3)` where the
numerator sums the gains of passes with a DRS sample in the 2-second
window before the pass and the denominator sums the gains of *all* passes
of the round, aligned or not. -/
theorem c6_theorem : ∀ (evs : List PassEvent) (drs : List (ℤ × ℚ)),
    (∀ e ∈ evs, 1 ≤ e.gained) →
    ((drsShare evs drs = none ↔ drs = [] ∨ ∀ e ∈ evs, drsSamples drs e.driver = []) ∧
     (∀ q, drsShare evs drs = some q →
       q = pyRound3 ((drsActiveGains evs drs : ℚ) / (totalGains evs : ℚ)))) := by
  intro evs drs hg
  unfold drsShare
  split_ifs with h1 h2 h3
  · rcases h1 with h1 | h1
    · subst h1
      refine ⟨⟨fun _ => Or.inr (by intro e he; cases he), fun _ => rfl⟩, fun q hq => by cases hq⟩
    · subst h1
      refine ⟨⟨fun _ => Or.inl rfl, fun _ => rfl⟩, fun q hq => by cases hq⟩
  · refine ⟨⟨fun _ => ?_, fun _ => rfl⟩, fun q hq => by cases hq⟩
    right
    exact alignedEvents_nil_iff.mp (List.length_eq_zero.mp h2)
  · exfalso
    have hne : evs ≠ [] := by
      intro h
      exact h1 (Or.inl h)
    have := totalGains_pos hg hne
    omega
  · constructor
    · constructor
      · intro h
        cases h
      · intro h
        exfalso
        rcases h with h | h
        · exact h1 (Or.inr h)
        · exact h2 (by rw [List.length_eq_zero]; exact alignedEvents_nil_iff.mpr h)
    · intro q hq
      cases hq
      rfl

/-- Witness for C6: no aligned sample gives `None`; with an aligned
in-window sample the share is determinate. -/
theorem c6_witness :
    drsShare [⟨1, 10, 1⟩] [] = none ∧
    drsShare [⟨3, 10, 2⟩] [(3, 9)] ≠ none := by
  constructor
  · exact (c6_theorem [⟨1, 10, 1⟩] [] (by intro e he; rcases List.mem_singleton.mp he with rfl; norm_num)).1.mpr
      (Or.inl rfl)
  · intro h
    have := (c6_theorem [⟨3, 10, 2⟩] [(3, 9)] (by intro e he; rcases List.mem_singleton.mp he with rfl; norm_num)).1.mp h
    rcases this with h' | h'
    · cases h'
    · have := h' ⟨3, 10, 2⟩ (by simp)
      simp [drsSamples, List.filter] at this

/-!
Claim C7: failure behaviour of the round resolver.
-/

/-- C7 counterexample: a non-empty OpenF1 response with the required
columns but zero usable race sessions (its only row has a non-numeric
session key) makes the resolver return an empty round list and the run
continue — it does not fail fast. -/
theorem c7_counterexample :
    fetchOpenf1RaceSessions ⟨[⟨none, "Race", some 0⟩], true, true, true⟩ = .ok [] ∧
    resolveRoundsWithSessions ⟨[⟨none, "Race", some 0⟩], true, true, true⟩
      ⟨[⟨some 1, "GP", some 0⟩], true, true, true⟩ = .ok [] :=
  ⟨rfl, rfl⟩

/-- C7 amended: the resolver aborts the run exactly when the OpenF1
response has no rows at all or either provider's frame lacks a required
column; when the responses are non-empty with the required columns, it
always succeeds — zero usable sessions or rounds after filtering yield an
empty round list (`count == 0`) and the run continues — and its output is
the positional zip, of length `min` of the two usable list lengths. -/
theorem c7_theorem : ∀ (s : SessionsResponse) (sch : ScheduleResponse),
    ((∃ e, resolveRoundsWithSessions s sch = .error e) ↔
      (s.rows = [] ∨ ¬(s.hasSessionKey ∧ s.hasSessionName ∧ s.hasDateStart) ∨
       ¬(sch.hasRoundNumber ∧ sch.hasEventName ∧ sch.hasEventDate))) ∧
    (∀ (u : List SessionRec) (r : List SchedRec),
      fetchOpenf1RaceSessions s = .ok u → fetchScheduleRounds sch = .ok r →
      ∃ l, resolveRoundsWithSessions s sch = .ok l ∧ l.length = min r.length u.length) := by
  intro s sch
  have hmain : ∀ (u : List SessionRec) (r : List SchedRec),
      fetchOpenf1RaceSessions s = .ok u → fetchScheduleRounds sch = .ok r →
      ∃ l, resolveRoundsWithSessions s sch = .ok l ∧ l.length = min r.length u.length := by
    intro u r hu hr
    refine ⟨List.zipWith (fun (sr : SchedRec) (se : SessionRec) =>
      RoundRec.mk sr.round sr.event sr.date se.session_key) r u, ?_, List.length_zipWith _ _ _⟩
    unfold resolveRoundsWithSessions
    rw [hu, hr]
    rfl
  refine ⟨⟨?_, ?_⟩, hmain⟩
  · intro he
    by_contra hcon
    push_neg at hcon
    obtain ⟨hA, hB, hC⟩ := hcon
    rcases hfu : fetchOpenf1RaceSessions s with e | u
    · unfold fetchOpenf1RaceSessions at hfu
      rw [if_neg hA, if_neg (not_not_intro hB)] at hfu
      cases hfu
    · rcases hfr : fetchScheduleRounds sch with e | r
      · unfold fetchScheduleRounds at hfr
        rw [if_neg (not_not_intro hC)] at hfr
        cases hfr
      · obtain ⟨e, he⟩ := he
        obtain ⟨l, hl, _⟩ := hmain u r hfu hfr
        rw [hl] at he
        cases he
  · intro h
    rcases h with h | h | h
    · refine ⟨"OpenF1 sessions returned no 2025 race sessions.", ?_⟩
      unfold resolveRoundsWithSessions fetchOpenf1RaceSessions
      rw [if_pos h]
      rfl
    · by_cases hA : s.rows = []
      · refine ⟨"OpenF1 sessions returned no 2025 race sessions.", ?_⟩
        unfold resolveRoundsWithSessions fetchOpenf1RaceSessions
        rw [if_pos hA]
        rfl
      · refine ⟨"OpenF1 sessions missing required columns.", ?_⟩
        unfold resolveRoundsWithSessions fetchOpenf1RaceSessions
        rw [if_neg hA, if_pos h]
        rfl
    · by_cases hA : s.rows = []
      · refine ⟨"OpenF1 sessions returned no 2025 race sessions.", ?_⟩
        unfold resolveRoundsWithSessions fetchOpenf1RaceSessions
        rw [if_pos hA]
        rfl
      · by_cases hB : s.hasSessionKey ∧ s.hasSessionName ∧ s.hasDateStart
        · refine ⟨"FastF1 schedule missing required columns.", ?_⟩
          unfold resolveRoundsWithSessions fetchOpenf1RaceSessions fetchScheduleRounds
          rw [if_neg hA, if_neg (not_not_intro hB), if_pos h]
          rfl
        · refine ⟨"OpenF1 sessions missing required columns.", ?_⟩
          unfold resolveRoundsWithSessions fetchOpenf1RaceSessions
          rw [if_neg hA, if_pos hB]
          rfl

/-- Witness for C7: the abort case (empty raw response) and the
empty-but-successful case, both concrete. -/
theorem c7_witness :
    (∃ e, resolveRoundsWithSessions ⟨[], true, true, true⟩
      ⟨[⟨some 1, "GP", some 0⟩], true, true, true⟩ = .error e) ∧
    (∃ l, resolveRoundsWithSessions ⟨[⟨none, "Race", some 0⟩], true, true, true⟩
        ⟨[⟨some 1, "GP", some 0⟩], true, true, true⟩ = .ok l ∧
      l.length = min 1 0) := by
  constructor
  · exact (c7_theorem ⟨[], true, true, true⟩ ⟨[⟨some 1, "GP", some 0⟩], true, true, true⟩).1.mpr
      (Or.inl rfl)
  · exact (c7_theorem _ _).2 [] [⟨1, "GP", some 0⟩] rfl rfl

/-!
Claim C8: non-empty driver/team labels on emitted rows.
-/

theorem mapDriverMeta_ne (o f : List (ℤ × Meta4)) (n : ℤ) :
    (mapDriverMeta o f n).1 ≠ "" ∧ (mapDriverMeta o f n).2 ≠ "" := by
  constructor
  · rcases h1 : pyTruthy ((metaLookup o n).map (fun m4 => m4.abbr)) with _ | s
    · rcases h2 : pyTruthy ((metaLookup f n).map (fun m4 => m4.abbr)) with _ | t
      · simpa [mapDriverMeta, h1, h2] using intToString_ne n
      · simpa [mapDriverMeta, h1, h2] using (pyTruthy_eq_some h2).2
    · simpa [mapDriverMeta, h1] using (pyTruthy_eq_some h1).2
  · rcases h1 : pyTruthy ((metaLookup o n).map (fun m4 => m4.team)) with _ | s
    · rcases h2 : pyTruthy ((metaLookup f n).map (fun m4 => m4.team)) with _ | t
      · simp [mapDriverMeta, h1, h2]
      · simpa [mapDriverMeta, h1, h2] using (pyTruthy_eq_some h2).2
    · simpa [mapDriverMeta, h1] using (pyTruthy_eq_some h1).2

theorem fillRow_driver_number (openf1 fastf1 : List (ℤ × Meta4)) (r : MappedRow) :
    (fillRow openf1 fastf1 r).driver_number = r.driver_number := by
  unfold fillRow
  split <;> rfl

theorem fillRow_ne {openf1 fastf1 : List (ℤ × Meta4)} {r : MappedRow} {n : ℤ}
    (hn : r.driver_number = some n) :
    (fillRow openf1 fastf1 r).driver ≠ "" ∧ (fillRow openf1 fastf1 r).team ≠ "" := by
  simp only [fillRow, hn]
  constructor
  · split_ifs with h
    · exact (mapDriverMeta_ne openf1 fastf1 n).1
    · intro he
      exact h (by rw [he]; rfl)
  · split_ifs with h
    · exact (mapDriverMeta_ne openf1 fastf1 n).2
    · intro he
      exact h (by rw [he]; rfl)

/-- C8 counterexample: when the OpenF1 pit frame is empty and the FastF1
lap fallback supplies a stop whose lap rows carry no `Team` value and no
`DriverNumber`, the round's race summary row is emitted with
`fastest_team = ""` — an empty team label in an output row, violating the
claimed invariant (the driver label `"HAM"` is fine, the team is not). -/
theorem c8_counterexample :
    raceSummaryRow 1
      (ch4RoundPits ⟨[], true, true, true⟩
        (some ⟨[⟨"HAM", some 1, some 100, none, none, ""⟩,
                ⟨"HAM", some 2, none, some 120, none, ""⟩], true, true, true, true⟩)
        [] [])
      = some ⟨1, 1, 20, 0, 20, "", "HAM"⟩ := by
  have he2 : emitFallbackRow
      [⟨"HAM", some 1, some 100, none, none, ""⟩, ⟨"HAM", some 2, none, some 120, none, ""⟩] "HAM"
      ⟨"HAM", some 2, none, some 120, none, ""⟩ = some ⟨none, "HAM", "", 2, 20⟩ := by
    simp only [emitFallbackRow,
      show lapIndexGet [⟨"HAM", some 1, some 100, none, none, ""⟩,
        ⟨"HAM", some 2, none, some 120, none, ""⟩] (2 - 1) =
        some ⟨"HAM", some 1, some 100, none, none, ""⟩ from rfl]
    norm_num
  have hpits : ch4RoundPits ⟨[], true, true, true⟩
      (some ⟨[⟨"HAM", some 1, some 100, none, none, ""⟩,
              ⟨"HAM", some 2, none, some 120, none, ""⟩], true, true, true, true⟩)
      [] [] = [⟨none, "HAM", "", some 2, 20⟩] := by
    have hfb : fetchFastf1PitDf
        (some ⟨[⟨"HAM", some 1, some 100, none, none, ""⟩,
                ⟨"HAM", some 2, none, some 120, none, ""⟩], true, true, true, true⟩)
        = [⟨none, "HAM", "", 2, 20⟩] := by
      simp only [fetchFastf1PitDf,
        show driversOf [⟨"HAM", some 1, some 100, none, none, ""⟩,
          ⟨"HAM", some 2, none, some 120, none, ""⟩] = ["HAM"] from rfl,
        show groupRows [⟨"HAM", some 1, some 100, none, none, ""⟩,
            ⟨"HAM", some 2, none, some 120, none, ""⟩] "HAM" =
          [⟨"HAM", some 1, some 100, none, none, ""⟩,
            ⟨"HAM", some 2, none, some 120, none, ""⟩] from rfl,
        List.map, List.filterMap, List.flatten, he2,
        show emitFallbackRow
          [⟨"HAM", some 1, some 100, none, none, ""⟩,
            ⟨"HAM", some 2, none, some 120, none, ""⟩] "HAM"
          ⟨"HAM", some 1, some 100, none, none, ""⟩ = none from rfl]
      simp
    simp only [ch4RoundPits, hfb, show fetchPitDf ⟨[], true, true, true⟩ = [] from rfl,
      List.map, fbToMapped, fillRow]
  rw [hpits]
  simp only [raceSummaryRow, List.map, List.length_cons, List.length_nil, List.foldl]
  norm_num [pandasQuantile, List.insertionSort, List.orderedInsert, pyRound3, pyRoundInt]

/-- C8 amended: chapter-5 `driver_passing` rows and every chapter-4 row
that carries a numeric driver number (all rows of the OpenF1 pit path, in
particular) have non-empty driver and team labels, degrading to the
stringified driver number and the literal `"Unknown"`; but chapter-4
fallback rows without a driver number keep whatever labels the lap table
supplied — possibly the empty string — and the race summary passes them
through (see the counterexample). -/
theorem c8_theorem :
    (∀ (meta : Option Meta5) (n passes net : ℤ),
      (driverPassingRow meta n passes net).driver ≠ "" ∧
      (driverPassingRow meta n passes net).team ≠ "") ∧
    (∀ (openf1 fastf1 : List (ℤ × Meta4)) (r : MappedRow) (n : ℤ),
      r.driver_number = some n →
      (fillRow openf1 fastf1 r).driver ≠ "" ∧ (fillRow openf1 fastf1 r).team ≠ "") ∧
    (∀ (pr : PitResponse) (lt : Option LapsTable)
      (openf1 fastf1 : List (ℤ × Meta4)) (e : MappedRow),
      e ∈ ch4RoundPits pr lt openf1 fastf1 → e.driver_number ≠ none →
      e.driver ≠ "" ∧ e.team ≠ "") := by
  refine ⟨?_, ?_, ?_⟩
  · intro meta n passes net
    constructor
    · rcases h1 : pyTruthy (meta.map (fun m5 => m5.driver)) with _ | s
      · simpa [driverPassingRow, h1] using intToString_ne n
      · simpa [driverPassingRow, h1] using (pyTruthy_eq_some h1).2
    · rcases h1 : pyTruthy (meta.map (fun m5 => m5.team)) with _ | s
      · simp [driverPassingRow, h1]
      · simpa [driverPassingRow, h1] using (pyTruthy_eq_some h1).2
  · intro openf1 fastf1 r n hn
    exact fillRow_ne hn
  · intro pr lt openf1 fastf1 e he hnum
    unfold ch4RoundPits at he
    rcases List.mem_map.mp he with ⟨r, _, rfl⟩
    rcases hn : r.driver_number with _ | n
    · exact absurd (by rw [fillRow_driver_number, hn]) hnum
    · exact fillRow_ne hn

/-- Witness for C8: the degradation labels at concrete inputs — an
unresolved chapter-5 driver gets `str(number)` / `"Unknown"`, and a
chapter-4 row with a driver number but blank labels is filled in. -/
theorem c8_witness :
    ((driverPassingRow none 5 0 0).driver ≠ "" ∧ (driverPassingRow none 5 0 0).team ≠ "") ∧
    ((fillRow [] [] ⟨some 44, "", "", none, 21⟩).driver ≠ "" ∧
      (fillRow [] [] ⟨some 44, "", "", none, 21⟩).team ≠ "") :=
  ⟨c8_theorem.1 none 5 0 0, c8_theorem.2.1 [] [] ⟨some 44, "", "", none, 21⟩ 44 rfl⟩

/-!
Claim C9: the season-level team pit table.
-/

/-- C9 counterexample: the stop-duration multisets `[1, 2, 2, 5, 5]` and
`[1, 1, 4, 4, 5]` have the same mean, population standard deviation,
minimum and count, so the season team row is identical for both — yet
their medians (2 vs 4) and 25th percentiles (2 vs 1) differ.  The
season-level table therefore cannot be computing the median or the
25th/75th percentiles of stop duration as the claim states. -/
theorem c9_counterexample :
    teamSeasonRow "Alpha" [1, 2, 2, 5, 5] 0 0 = teamSeasonRow "Alpha" [1, 1, 4, 4, 5] 0 0 ∧
    pandasQuantile [1, 2, 2, 5, 5] (1 / 2) = 2 ∧
    pandasQuantile [1, 1, 4, 4, 5] (1 / 2) = 4 ∧
    pandasQuantile [1, 2, 2, 5, 5] (1 / 4) = 2 ∧
    pandasQuantile [1, 1, 4, 4, 5] (1 / 4) = 1 := by
  refine ⟨?_, ?_, ?_, ?_, ?_⟩
  · norm_num [teamSeasonRow, listMean, popVar, listMin, pyRound3, pyRoundInt, min_def]
  · norm_num [pandasQuantile, List.insertionSort, List.orderedInsert]
    rfl
  · norm_num [pandasQuantile, List.insertionSort, List.orderedInsert]
    rfl
  · norm_num [pandasQuantile, List.insertionSort, List.orderedInsert]
  · norm_num [pandasQuantile, List.insertionSort, List.orderedInsert]

/-- C9 amended: the season-level team pit table computes, over a team's
validated stop durations across all processed rounds, the mean, the
population standard deviation (carried here as its square), the minimum
and the stop count (plus an optional undercut rate); the median and the
25th/75th percentiles are computed only in the per-round team table. -/
theorem c9_theorem :
    (∀ (t : String) (vals : List ℚ) (succ att : ℤ),
      (teamSeasonRow t vals succ att).avg_pit_s = pyRound3 (listMean vals) ∧
      (teamSeasonRow t vals succ att).consistencySq = popVar vals ∧
      (teamSeasonRow t vals succ att).best_pit_s = pyRound3 (listMin vals) ∧
      (teamSeasonRow t vals succ att).n_stops = vals.length) ∧
    (∀ (rd : ℤ) (t : String) (vals : List ℚ),
      (teamRoundRow rd t vals).p25_pit_s = pyRound3 (pandasQuantile vals (1 / 4)) ∧
      (teamRoundRow rd t vals).p50_pit_s = pyRound3 (pandasQuantile vals (1 / 2)) ∧
      (teamRoundRow rd t vals).p75_pit_s = pyRound3 (pandasQuantile vals (3 / 4))) :=
  ⟨fun _ _ _ _ => ⟨rfl, rfl, rfl, rfl⟩, fun _ _ _ => ⟨rfl, rfl, rfl⟩⟩

end F1
